import Mathlib

/-!
Verification of the lifecycle-supervision core of `mongobetween`
(`src/proxy/proxy.go`): shutdown signalling, the crash-restart wrapper,
upstream establishment in `run`, the listener setup and accept loop in
`listen`, and the per-connection session and force-close watcher in
`accept`.

The Go code is concurrent; the embedding models each routine as a pure
function from an explicit scenario (the outcomes of its external calls,
such as `mongo.Connect`, `net.Listen`, `l.Accept`, `handleConnection`,
`c.Close`) to the trace of observable events the routine performs and its
return value.  Go `defer` statements are translated by placing the
deferred events at the points where Go runs them (function return or
panic unwinding, in LIFO order), and `recover()` by the explicit handling
the source performs.
-/

namespace Mongobetween

/-! ## Shutdown channels (`Proxy.quit`, `Proxy.kill`; proxy.go lines 34-35, 69-83)

A Go channel used purely for `close`-broadcast is modelled by its one bit
of state: whether it has been closed.  Closing an already-closed channel
panics; both `Shutdown` and `Kill` wrap the close in
`defer func() \x7b _ = recover() \x7d()`, so the panic never escapes. -/

/-- State of the two broadcast channels of a `Proxy`:
`quit` is the graceful-shutdown flag, `kill` the forced-shutdown flag
(`true` = channel closed). -/
structure ProxyChans where
  quit : Bool
  kill : Bool
  deriving DecidableEq, Repr

/-- Go `close(ch)` on a broadcast channel: the channel ends up closed, and
the call panics exactly when the channel was already closed.
Returns (new closed-flag, panicked). -/
def closeChan (alreadyClosed : Bool) : Bool × Bool :=
  (true, alreadyClosed)

/-- A deferred `_ = recover()`: swallows any pending panic, so no panic
escapes to the caller.  Input: whether a panic was pending. -/
def deferRecover (_panicked : Bool) : Bool :=
  false

/-- `Proxy.Shutdown` (proxy.go lines 69-74): close `quit` under a deferred
`recover`.  Returns the new channel state and whether a panic escaped to
the caller. -/
def Shutdown (s : ProxyChans) : ProxyChans × Bool :=
  let (q, panicked) := closeChan s.quit
  ({ s with quit := q }, deferRecover panicked)

/-- `Proxy.Kill` (proxy.go lines 76-83): first call `Shutdown`, then close
`kill` under a deferred `recover`.  Returns the new channel state and
whether a panic escaped to the caller. -/
def Kill (s : ProxyChans) : ProxyChans × Bool :=
  let (s1, _) := Shutdown s
  let (k, panicked) := closeChan s1.kill
  ({ s1 with kill := k }, deferRecover panicked)

/-- The externally invocable lifecycle operations. -/
inductive LifeOp
  | shutdown
  | kill
  deriving DecidableEq, Repr

/-- Apply one lifecycle operation to the channel state. -/
def applyOp (s : ProxyChans) (o : LifeOp) : ProxyChans :=
  match o with
  | .shutdown => (Shutdown s).1
  | .kill => (Kill s).1

/-- Run a sequence of lifecycle operations from a given state. -/
def runOps (s : ProxyChans) (l : List LifeOp) : ProxyChans :=
  l.foldl applyOp s

/-- The initial channel state made by `NewProxy` (proxy.go lines 60-61):
both channels open. -/
def initChans : ProxyChans :=
  ⟨false, false⟩

/-- Run `n` calls of one lifecycle operation, counting the calls that
effectively transition the flag selected by `flagOf` from open to closed,
and recording whether any call let a panic escape.
Returns (final state, effective-transition count, any panic escaped). -/
def runCalls (f : ProxyChans → ProxyChans × Bool) (flagOf : ProxyChans → Bool) :
    ProxyChans → Nat → ProxyChans × Nat × Bool
  | s, 0 => (s, 0, false)
  | s, n + 1 =>
    let (s1, esc) := f s
    let (sF, cnt, escAny) := runCalls f flagOf s1 n
    (sF, (if !flagOf s && flagOf s1 then 1 else 0) + cnt, esc || escAny)

lemma shutdown_state (s : ProxyChans) : (Shutdown s).1 = { s with quit := true } := rfl

lemma shutdown_noEscape (s : ProxyChans) : (Shutdown s).2 = false := rfl

lemma kill_state (s : ProxyChans) : (Kill s).1 = ⟨true, true⟩ := rfl

lemma kill_noEscape (s : ProxyChans) : (Kill s).2 = false := rfl

lemma runCalls_shutdown_closed (k : Bool) (n : Nat) :
    runCalls Shutdown ProxyChans.quit ⟨true, k⟩ n = (⟨true, k⟩, 0, false) := by
  induction n with
  | zero => rfl
  | succ n ih => simp [runCalls, Shutdown, closeChan, deferRecover, ih]

lemma runCalls_kill_closed (n : Nat) :
    runCalls Kill ProxyChans.kill ⟨true, true⟩ n = (⟨true, true⟩, 0, false) := by
  induction n with
  | zero => rfl
  | succ n ih => simp [runCalls, Kill, Shutdown, closeChan, deferRecover, ih]

/-- **C7.** For every number of repeated `Shutdown` calls starting from the
initial state, at least one call being made, exactly one call effectively
transitions the graceful (`quit`) flag from open to closed and no call
lets a panic (or error) escape to its caller; the same holds for repeated
`Kill` calls and the forced (`kill`) flag. -/
theorem C7_idempotent_close (n : Nat) (h : 0 < n) :
    (runCalls Shutdown ProxyChans.quit initChans n).2 = (1, false) ∧
    (runCalls Kill ProxyChans.kill initChans n).2 = (1, false) := by
  cases n with
  | zero => exact absurd h (by decide)
  | succ m =>
    constructor
    · show (runCalls Shutdown ProxyChans.quit initChans (m + 1)).2 = (1, false)
      simp [runCalls, initChans, Shutdown, closeChan, deferRecover,
        runCalls_shutdown_closed]
    · show (runCalls Kill ProxyChans.kill initChans (m + 1)).2 = (1, false)
      simp [runCalls, initChans, Kill, Shutdown, closeChan, deferRecover,
        runCalls_kill_closed]

/-- Witness for C7 at `n = 3`. -/
theorem C7_idempotent_close_witness :
    (runCalls Shutdown ProxyChans.quit initChans 3).2 = (1, false) ∧
    (runCalls Kill ProxyChans.kill initChans 3).2 = (1, false) :=
  C7_idempotent_close 3 (by decide)

lemma runOps_quit_mono (l : List LifeOp) (s : ProxyChans) (h : s.quit = true) :
    (runOps s l).quit = true := by
  induction l generalizing s with
  | nil => exact h
  | cons o rest ih =>
    cases o with
    | shutdown => exact ih _ rfl
    | kill => exact ih _ rfl

/-- **C8.** After any call to `Kill` the graceful flag is closed, and in every
state reachable from the initial state by lifecycle operations, the forced
flag being closed implies the graceful flag is closed. -/
theorem C8_kill_implies_quit (s : ProxyChans) (l : List LifeOp)
    (h : (runOps initChans l).kill = true) :
    ((Kill s).1).quit = true ∧ (runOps initChans l).quit = true := by
  refine ⟨rfl, ?_⟩
  induction l with
  | nil => exact absurd h (by simp [runOps, initChans])
  | cons o rest ih =>
    cases o with
    | shutdown =>
      show (runOps ⟨true, false⟩ rest).quit = true
      exact runOps_quit_mono rest _ rfl
    | kill =>
      show (runOps ⟨true, true⟩ rest).quit = true
      exact runOps_quit_mono rest _ rfl

/-- Witness for C8 at the operation sequence `[kill]`. -/
theorem C8_kill_implies_quit_witness :
    ((Kill initChans).1).quit = true ∧ (runOps initChans [LifeOp.kill]).quit = true :=
  C8_kill_implies_quit initChans [LifeOp.kill] (by decide)

/-! ## The crash supervisor `Proxy.run` (proxy.go lines 85-118)

`run` connects the primary upstream, optionally the failover upstream,
then calls `listen`; `defer m.Close()` / `defer mf.Close()` release the
handles on every exit, and a deferred `recover` catches a panic of the
serve sequence, logs it with a stack trace, sleeps `restartSleep`, and
re-invokes `run` in a fresh goroutine, logging an error returned by that
re-invocation.  A scenario is the list of body outcomes of the successive
invocations (the head drives the first invocation; on a panic the restart
consumes the rest). -/

/-- The fixed restart backoff, in seconds (`restartSleep = 1 * time.Second`,
proxy.go line 20). -/
def restartSleep : Nat := 1

/-- The errors the `run` body can return. -/
inductive GoErr
  | errPrimary
  | errFailover
  | errBind
  deriving DecidableEq, Repr

/-- The ways one invocation of the `run` body can terminate. -/
inductive BodyOutcome
  | primaryConnectErr
  | failoverConnectErr
  | listenBindErr
  | servePanic
  | cleanShutdown
  deriving DecidableEq, Repr

/-- Observable events of `run`. -/
inductive REv
  | connectPrimary
  | connectFailover
  | listenCall
  | closePrimary
  | closeFailover
  | logCrash
  | sleepFor (secs : Nat)
  | logRestarting
  | logRestartErr
  deriving DecidableEq, Repr

/-- Events of a full pass through the `run` body up to the `p.listen` call
(`cfg` = a failover upstream is configured). -/
def bodyEvs (cfg : Bool) : List REv :=
  REv.connectPrimary :: (if cfg then [REv.connectFailover] else []) ++ [REv.listenCall]

/-- The deferred `m.Close()` / `mf.Close()` calls, in the LIFO order Go runs
them. -/
def deferCloses (cfg : Bool) : List REv :=
  (if cfg then [REv.closeFailover] else []) ++ [REv.closePrimary]

/-- `Proxy.run` (proxy.go lines 85-118) on a scenario: the list of body
outcomes of the successive invocations.  Returns the event trace (restart
goroutine events linearized after the deferred recover that spawned them)
and the error `run` returns to its caller.  After a recovered panic `run`
returns the zero value `nil`. -/
def runT (cfg : Bool) : List BodyOutcome → List REv × Option GoErr
  | [] => ([], none)
  | o :: rest =>
    match o with
    | .primaryConnectErr => ([REv.connectPrimary], some .errPrimary)
    | .failoverConnectErr =>
      ([REv.connectPrimary, REv.connectFailover, REv.closePrimary], some .errFailover)
    | .listenBindErr => (bodyEvs cfg ++ deferCloses cfg, some .errBind)
    | .cleanShutdown => (bodyEvs cfg ++ deferCloses cfg, none)
    | .servePanic =>
      let (restEvs, restRet) := runT cfg rest
      (bodyEvs cfg ++ deferCloses cfg ++
        [REv.logCrash, REv.sleepFor restartSleep, REv.logRestarting] ++
        restEvs ++ (if restRet.isSome then [REv.logRestartErr] else []),
       none)

/-- **C3.** The crash supervisor classifies terminations in exactly three
ways: a fatal startup failure (primary connect, failover connect, or
listener bind error) is returned to the caller with no crash log, no
backoff sleep and no restart; a panic of the serve sequence is captured
(`run` returns nil), logged, followed by a `restartSleep`-second sleep and
a re-invocation of the same sequence whose events follow and whose own
failure is logged exactly when it returns an error; a clean shutdown
returns nil with no crash log and no restart. -/
theorem C3_crash_supervisor (cfg : Bool) (rest : List BodyOutcome) :
    ((runT cfg (.primaryConnectErr :: rest)).2 = some .errPrimary ∧
      REv.logCrash ∉ (runT cfg (.primaryConnectErr :: rest)).1 ∧
      REv.sleepFor restartSleep ∉ (runT cfg (.primaryConnectErr :: rest)).1 ∧
      REv.logRestarting ∉ (runT cfg (.primaryConnectErr :: rest)).1) ∧
    ((runT cfg (.failoverConnectErr :: rest)).2 = some .errFailover ∧
      REv.logCrash ∉ (runT cfg (.failoverConnectErr :: rest)).1 ∧
      REv.sleepFor restartSleep ∉ (runT cfg (.failoverConnectErr :: rest)).1 ∧
      REv.logRestarting ∉ (runT cfg (.failoverConnectErr :: rest)).1) ∧
    ((runT cfg (.listenBindErr :: rest)).2 = some .errBind ∧
      REv.logCrash ∉ (runT cfg (.listenBindErr :: rest)).1 ∧
      REv.sleepFor restartSleep ∉ (runT cfg (.listenBindErr :: rest)).1 ∧
      REv.logRestarting ∉ (runT cfg (.listenBindErr :: rest)).1) ∧
    ((runT cfg (.servePanic :: rest)).2 = none ∧
      (runT cfg (.servePanic :: rest)).1 =
        bodyEvs cfg ++ deferCloses cfg ++
          [REv.logCrash, REv.sleepFor restartSleep, REv.logRestarting] ++
          (runT cfg rest).1 ++
          (if (runT cfg rest).2.isSome then [REv.logRestartErr] else [])) ∧
    ((runT cfg (.cleanShutdown :: rest)).2 = none ∧
      REv.logCrash ∉ (runT cfg (.cleanShutdown :: rest)).1 ∧
      REv.sleepFor restartSleep ∉ (runT cfg (.cleanShutdown :: rest)).1 ∧
      REv.logRestarting ∉ (runT cfg (.cleanShutdown :: rest)).1) := by
  cases cfg <;>
    simp [runT, bodyEvs, deferCloses]

/-- **C4.** In a single invocation of `run`: a primary connect failure makes
`run` return that error with the failover never contacted and `listen`
never called; a failover connect failure (only possible when a failover is
configured) makes `run` return that error with `listen` never called and
the primary handle released; and on every outcome in which the primary was
established, the primary handle is released, and on every outcome in which
the failover was established, the failover handle is released. -/
theorem C4_upstream_establishment (cfg : Bool) (o : BodyOutcome)
    (hval : o = .failoverConnectErr → cfg = true) :
    ((runT cfg [.primaryConnectErr]).2 = some .errPrimary ∧
      REv.connectFailover ∉ (runT cfg [.primaryConnectErr]).1 ∧
      REv.listenCall ∉ (runT cfg [.primaryConnectErr]).1) ∧
    ((runT cfg [.failoverConnectErr]).2 = some .errFailover ∧
      REv.listenCall ∉ (runT cfg [.failoverConnectErr]).1 ∧
      REv.closePrimary ∈ (runT cfg [.failoverConnectErr]).1) ∧
    (o ≠ .primaryConnectErr → REv.closePrimary ∈ (runT cfg [o]).1) ∧
    (o ≠ .primaryConnectErr → o ≠ .failoverConnectErr → cfg = true →
      REv.closeFailover ∈ (runT cfg [o]).1) := by
  refine ⟨by cases cfg <;> simp [runT], by cases cfg <;> simp [runT], ?_, ?_⟩
  · intro h1
    cases o <;> simp_all [runT, bodyEvs, deferCloses]
  · intro h1 h2 h3
    subst h3
    cases o <;> simp_all [runT, bodyEvs, deferCloses]

/-- Witness for C4 at `cfg = true`, outcome `cleanShutdown`. -/
theorem C4_upstream_establishment_witness :
    (runT true [BodyOutcome.primaryConnectErr]).2 = some GoErr.errPrimary ∧
    REv.closePrimary ∈ (runT true [BodyOutcome.cleanShutdown]).1 ∧
    REv.closeFailover ∈ (runT true [BodyOutcome.cleanShutdown]).1 :=
  have h := C4_upstream_establishment true BodyOutcome.cleanShutdown (by decide)
  ⟨h.1.1, h.2.2.1 (by decide), h.2.2.2 (by decide) (by decide) rfl⟩

/-! ## `Proxy.listen` and the accept loop (proxy.go lines 120-167)

`listen` special-cases unix-domain networks (`strings.Contains(p.network,
"unix")`): it clears the umask with a function-scoped deferred restore and
optionally unlinks the socket path, then binds, registers `defer
l.Close()`, and runs the accept loop.  The loop returns on an accept
error with `quit` closed, logs and continues on an accept error with
`quit` open, and handles each accepted connection. -/

/-- Go `strings.HasPrefix`-style check on character lists: `pat` leads `s`. -/
def leadsWith : List Char → List Char → Bool
  | [], _ => true
  | _ :: _, [] => false
  | a :: as, b :: bs => a == b && leadsWith as bs

/-- Substring containment on character lists: `pat` occurs in `s`. -/
def hasSubstring : List Char → List Char → Bool
  | pat, [] => pat.isEmpty
  | pat, c :: rest => leadsWith pat (c :: rest) || hasSubstring pat rest

/-- Go `strings.Contains(s, sub)` (used at proxy.go line 121). -/
def goContains (s sub : String) : Bool :=
  hasSubstring sub.data s.data

/-- One iteration of the accept loop, as seen from `l.Accept()`:
a successful accept, an accept error with `quit` not yet closed, an accept
error with `quit` closed, or a panic raised while serving the loop. -/
inductive AcceptStep
  | conn
  | errNoQuit
  | errQuit
  | panik
  deriving DecidableEq, Repr

/-- How the accept loop ends: returned (accept error with `quit` closed),
panicked, or still running (scenario exhausted while blocked in accept). -/
inductive LoopEnd
  | exited
  | panicked
  | pending
  deriving DecidableEq, Repr

/-- Observable events of `listen` and its accept loop. -/
inductive LEv
  | umaskZero
  | unlinkAddr
  | umaskRestored
  | bindOk
  | bindFail
  | closeListener
  | accepted
  | logAcceptErr
  | loopExit
  deriving DecidableEq, Repr

/-- The accept loop of `Proxy.accept` (proxy.go lines 157-167) on a scenario
of accept outcomes: events performed and how the loop ended. -/
def acceptLoop : List AcceptStep → List LEv × LoopEnd
  | [] => ([], .pending)
  | .conn :: r =>
    let (e, k) := acceptLoop r
    (LEv.accepted :: e, k)
  | .errNoQuit :: r =>
    let (e, k) := acceptLoop r
    (LEv.logAcceptErr :: e, k)
  | .errQuit :: _ => ([LEv.loopExit], .exited)
  | .panik :: _ => ([], .panicked)

/-- What `listen` hands back: returned `nil`, returned the bind error,
propagated a panic (deferred calls already run), or has not returned yet. -/
inductive ListenRet
  | ok
  | errBindRet
  | panicRet
  | pendingRet
  deriving DecidableEq, Repr

/-- `Proxy.listen` (proxy.go lines 120-146): unix-network umask/unlink
handling, bind, deferred listener close, accept loop.  The deferred
`syscall.Umask(oldUmask)` and `l.Close()` run when `listen` returns or
its body panics, in LIFO order; while the loop is still running neither
has run. -/
def listen (network : String) (unlink bindOk : Bool) (steps : List AcceptStep) :
    List LEv × ListenRet :=
  let ux := goContains network "unix"
  let pre :=
    if ux then LEv.umaskZero :: (if unlink then [LEv.unlinkAddr] else []) else []
  let restore := if ux then [LEv.umaskRestored] else []
  if bindOk then
    match acceptLoop steps with
    | (evs, .pending) => (pre ++ [LEv.bindOk] ++ evs, .pendingRet)
    | (evs, .exited) =>
      (pre ++ [LEv.bindOk] ++ evs ++ [LEv.closeListener] ++ restore, .ok)
    | (evs, .panicked) =>
      (pre ++ [LEv.bindOk] ++ evs ++ [LEv.closeListener] ++ restore, .panicRet)
  else
    (pre ++ [LEv.bindFail] ++ restore, .errBindRet)

/-- **C5.** `listen` returns a (non-nil) error exactly when the bind fails,
and returns nil when the accept loop exits for graceful shutdown; an
accept error while `quit` is open is logged and the loop goes on with the
remaining scenario, while an accept error with `quit` closed ends the loop
cleanly, ignoring the remaining scenario. -/
theorem C5_listen_errors (network : String) (unlink : Bool)
    (steps r : List AcceptStep) (hexit : (acceptLoop steps).2 = .exited) :
    ((listen network unlink false steps).2 = .errBindRet) ∧
    ((listen network unlink true steps).2 = .ok) ∧
    (acceptLoop (.errNoQuit :: r) =
      (LEv.logAcceptErr :: (acceptLoop r).1, (acceptLoop r).2)) ∧
    (acceptLoop (.errQuit :: r) = ([LEv.loopExit], .exited)) := by
  refine ⟨by simp [listen], ?_, rfl, rfl⟩
  rcases hloop : acceptLoop steps with ⟨evs, fin⟩
  rw [hloop] at hexit
  simp only at hexit
  subst hexit
  simp [listen, hloop]

/-- Witness for C5 at `network = "tcp"`, scenario `[conn, errQuit]`. -/
theorem C5_listen_errors_witness :
    (listen "tcp" false false [AcceptStep.conn, AcceptStep.errQuit]).2 =
      ListenRet.errBindRet ∧
    (listen "tcp" false true [AcceptStep.conn, AcceptStep.errQuit]).2 =
      ListenRet.ok :=
  have h := C5_listen_errors "tcp" false [AcceptStep.conn, AcceptStep.errQuit] []
    (by decide)
  ⟨h.1, h.2.1⟩

lemma getLast_snoc2 (a b c : LEv) (evs : List LEv) :
    (a :: (evs ++ [b, c])).getLast? = some c := by
  induction evs generalizing a with
  | nil => rfl
  | cons x r ih => rw [List.cons_append, List.getLast?_cons_cons]; exact ih x

lemma umaskRestored_not_in_acceptLoop (steps : List AcceptStep) :
    LEv.umaskRestored ∉ (acceptLoop steps).1 := by
  induction steps with
  | nil => simp [acceptLoop]
  | cons s r ih => cases s <;> simp [acceptLoop] <;> exact ih

lemma umaskZero_not_in_acceptLoop (steps : List AcceptStep) :
    LEv.umaskZero ∉ (acceptLoop steps).1 := by
  induction steps with
  | nil => simp [acceptLoop]
  | cons s r ih => cases s <;> simp [acceptLoop] <;> exact ih

lemma unlinkAddr_not_in_acceptLoop (steps : List AcceptStep) :
    LEv.unlinkAddr ∉ (acceptLoop steps).1 := by
  induction steps with
  | nil => simp [acceptLoop]
  | cons s r ih => cases s <;> simp [acceptLoop] <;> exact ih

/-- **C2 counterexample.** With network `"unix"`, a successful bind and one
accepted connection (the loop then blocked in accept), the umask has been
set to zero and the connection accepted but the old umask has not been
restored: the restore is not performed immediately after binding, and the
mask stays at zero for the duration of the accept loop. -/
theorem C2_cex_umask_not_restored_after_bind :
    (listen "unix" false true [AcceptStep.conn]).1 =
      [LEv.umaskZero, LEv.bindOk, LEv.accepted] ∧
    LEv.umaskRestored ∉ (listen "unix" false true [AcceptStep.conn]).1 := by
  have h : (listen "unix" false true [AcceptStep.conn]).1 =
      [LEv.umaskZero, LEv.bindOk, LEv.accepted] := rfl
  exact ⟨h, by rw [h]; decide⟩

/-- **C2 (amended).** Whenever the configured network contains `"unix"`,
`listen` sets the umask to zero as its first action, and restores the
prior umask exactly when `listen` returns — as the last deferred action on
every return (bind failure, clean exit of the accept loop, or a panic
unwinding `listen`) — while for as long as the accept loop is still
running the mask remains zero (no restore event has occurred). -/
theorem C2_umask_scoped_to_listen (network : String) (unlink bindOk : Bool)
    (steps : List AcceptStep) (hux : goContains network "unix" = true) :
    ((listen network unlink bindOk steps).1).head? = some LEv.umaskZero ∧
    ((listen network unlink bindOk steps).2 ≠ .pendingRet →
      ((listen network unlink bindOk steps).1).getLast? = some LEv.umaskRestored) ∧
    ((listen network unlink bindOk steps).2 = .pendingRet →
      LEv.umaskRestored ∉ (listen network unlink bindOk steps).1) := by
  cases bindOk with
  | false =>
    refine ⟨?_, ?_, ?_⟩ <;> cases unlink <;> simp [listen, hux]
  | true =>
    rcases hloop : acceptLoop steps with ⟨evs, fin⟩
    have hnr := umaskRestored_not_in_acceptLoop steps
    rw [hloop] at hnr
    cases fin with
    | pending =>
      refine ⟨?_, ?_, ?_⟩ <;> cases unlink <;>
        simp [listen, hux, hloop] <;> simp_all
    | exited =>
      refine ⟨?_, ?_, ?_⟩ <;> cases unlink <;>
        simp [listen, hux, hloop, getLast_snoc2]
    | panicked =>
      refine ⟨?_, ?_, ?_⟩ <;> cases unlink <;>
        simp [listen, hux, hloop, getLast_snoc2]

/-- Witness for C2 (amended) at `network = "unix"`, `unlink = true`,
bind failure. -/
theorem C2_umask_scoped_to_listen_witness :
    ((listen "unix" true false []).1).head? = some LEv.umaskZero ∧
    ((listen "unix" true false []).1).getLast? = some LEv.umaskRestored :=
  have h := C2_umask_scoped_to_listen "unix" true false [] (by decide)
  ⟨h.1, h.2.1 (by decide)⟩

/-- **C10.** The unix-domain special handling runs exactly when the network
string contains `"unix"` as a substring: the umask is cleared iff the
network contains `"unix"`, and the socket path is unlinked iff in addition
the unlink flag is set; `"unixpacket"` and `"unixgram"` qualify even
though they are not equal to `"unix"`, while `"tcp"` triggers neither the
mask nor the filesystem handling. -/
theorem C10_unix_substring (network : String) (unlink bindOk : Bool)
    (steps : List AcceptStep) :
    (LEv.umaskZero ∈ (listen network unlink bindOk steps).1 ↔
      goContains network "unix" = true) ∧
    (LEv.unlinkAddr ∈ (listen network unlink bindOk steps).1 ↔
      (goContains network "unix" = true ∧ unlink = true)) ∧
    (goContains "unixpacket" "unix" = true ∧ "unixpacket" ≠ "unix") ∧
    (goContains "unixgram" "unix" = true ∧ "unixgram" ≠ "unix") ∧
    goContains "tcp" "unix" = false := by
  refine ⟨?_, ?_, by decide, by decide, by decide⟩ <;>
  · rcases hloop : acceptLoop steps with ⟨evs, fin⟩
    have hz : LEv.umaskZero ∉ evs := by
      have := umaskZero_not_in_acceptLoop steps
      rwa [hloop] at this
    have hu : LEv.unlinkAddr ∉ evs := by
      have := unlinkAddr_not_in_acceptLoop steps
      rwa [hloop] at this
    cases hux : goContains network "unix" <;> cases unlink <;> cases bindOk <;>
      cases fin <;> simp [listen, hux, hloop, hz, hu]

/-! ## The per-connection session goroutine (proxy.go lines 179-189)

The goroutine body is a straight-line sequence with no `defer` and no
`recover`: `handleConnection(...)`, then `c.Close()`, `log.Info("Close")`,
`close(done)`, `wg.Done()`, `closed(...)`.  In Go, statements after a call
that panics do not run, and a panic not recovered in its own goroutine
terminates the process. -/

/-- How the backend handler invocation `handleConnection` can end. -/
inductive HandlerOutcome
  | returns
  | panics
  deriving DecidableEq, Repr

/-- Observable events of the session goroutine. -/
inductive SEv
  | logAccept
  | handlerReturn
  | handlerPanic
  | connClose
  | logClose
  | doneSignal
  | wgDone
  | gaugeDec
  deriving DecidableEq, Repr

/-- The session goroutine body (proxy.go lines 179-189) as the sequence of
events it performs, by handler outcome.  On a panic the subsequent
statements do not run: nothing in the goroutine is deferred. -/
def sessionTrace : HandlerOutcome → List SEv
  | .returns =>
    [.logAccept, .handlerReturn, .connClose, .logClose, .doneSignal, .wgDone,
     .gaugeDec]
  | .panics => [.logAccept, .handlerPanic]

/-- Whether a panic escapes the session goroutine (no `recover` is
registered in it, so a handler panic always escapes — which in Go
terminates the whole process). -/
def sessionPanicEscapes : HandlerOutcome → Bool
  | .returns => false
  | .panics => true

/-- **C1 counterexample.** When the backend handler terminates abnormally
(panics), the session goroutine performs neither the connection close nor
the `done` signal, and the panic escapes the goroutine — contradicting the
claim that on any termination of the handler the socket is closed, `done`
is signalled, and the process survives. -/
theorem C1_cex_handler_panic :
    sessionTrace HandlerOutcome.panics = [SEv.logAccept, SEv.handlerPanic] ∧
    SEv.connClose ∉ sessionTrace HandlerOutcome.panics ∧
    SEv.doneSignal ∉ sessionTrace HandlerOutcome.panics ∧
    sessionPanicEscapes HandlerOutcome.panics = true := by
  refine ⟨rfl, ?_, ?_, rfl⟩ <;> decide

/-- **C1 (amended).** When the backend handler returns normally, the session
closes the connection socket and afterwards signals its completion
(`done`), and no panic escapes; when the handler panics, the session
performs neither the close nor the completion signal and the panic escapes
its goroutine unrecovered (in Go this takes down the process). -/
theorem C1_session_cleanup_on_return :
    (∃ l1 l2 l3, sessionTrace HandlerOutcome.returns =
      l1 ++ SEv.connClose :: (l2 ++ SEv.doneSignal :: l3)) ∧
    sessionPanicEscapes HandlerOutcome.returns = false ∧
    SEv.connClose ∉ sessionTrace HandlerOutcome.panics ∧
    SEv.doneSignal ∉ sessionTrace HandlerOutcome.panics ∧
    sessionPanicEscapes HandlerOutcome.panics = true := by
  refine ⟨⟨[SEv.logAccept, SEv.handlerReturn], [SEv.logClose],
    [SEv.wgDone, SEv.gaugeDec], rfl⟩, rfl, ?_, ?_, rfl⟩ <;> decide

/-! ## The per-connection force-close watcher (proxy.go lines 191-201)

A second goroutine per connection selects between `done` and `p.kill`:
on `done` it exits with no action; on `kill` it calls `c.Close()` and logs
"Force closed connection" only when that close returned no error. -/

/-- Which branch of the watcher's `select` fires, and for the `kill` branch
whether `c.Close()` returned an error. -/
inductive WatchCase
  | doneFirst
  | killFirst (closeErr : Bool)
  deriving DecidableEq, Repr

/-- What the watcher did. -/
structure WatchEffects where
  closeCalled : Bool
  logForcedClose : Bool
  deriving DecidableEq, Repr

/-- The per-connection watcher (proxy.go lines 191-201). -/
def connWatcher : WatchCase → WatchEffects
  | .doneFirst => ⟨false, false⟩
  | .killFirst closeErr => ⟨true, !closeErr⟩

/-- **C6 counterexample.** When the forced signal fires first but the
connection close returns an error, the watcher closes without logging the
forced close — contradicting the claim that whenever forced fires before
completion the watcher both force-closes and logs. -/
theorem C6_cex_no_log_on_close_error :
    connWatcher (WatchCase.killFirst true) =
      { closeCalled := true, logForcedClose := false } := by
  decide

/-- **C6 (amended).** The watcher races completion against the forced
signal: on completion first it exits without closing or logging; on forced
first it calls close on the connection and logs the forced close exactly
when that close succeeds (returns no error). -/
theorem C6_watcher_race (e : Bool) :
    connWatcher WatchCase.doneFirst =
      { closeCalled := false, logForcedClose := false } ∧
    (connWatcher (WatchCase.killFirst e)).closeCalled = true ∧
    ((connWatcher (WatchCase.killFirst e)).logForcedClose = true ↔ e = false) := by
  cases e <;> refine ⟨rfl, rfl, by decide⟩

/-! ## The live-connection gauge (proxy.go lines 155, 177-188)

`opened`/`closed` are the two callbacks of
`util.StatsdBackgroundGauge(p.statsd, "open_connections", ...)`.  The
accept loop calls `opened` exactly once per accepted connection, before
spawning the session goroutine; that goroutine calls `closed` exactly once,
after the session has fully completed (`close(done)`, `wg.Done()`).  The
interleaved executions are modelled as traces over two events — a
connection is accepted (gauge increment), a session completes (gauge
decrement) — where a completion event can only belong to a session whose
accept already happened, i.e. only when some session is running. -/

/-- Acceptor state: number of running sessions and the gauge value. -/
structure AccState where
  running : Nat
  gauge : Int
  deriving DecidableEq, Repr

/-- Gauge-relevant events of the accept loop and session goroutines. -/
inductive GEv
  | acceptConn
  | sessionDone
  deriving DecidableEq, BEq, Repr

/-- One event step.  A `sessionDone` is the decrement of the session whose
accept incremented the gauge; with no session running it cannot occur
(`none`): every decrement is executed once, by the goroutine spawned by
the matching accept, after it. -/
def gstep (s : AccState) : GEv → Option AccState
  | .acceptConn => some ⟨s.running + 1, s.gauge + 1⟩
  | .sessionDone =>
    match s.running with
    | 0 => none
    | n + 1 => some ⟨n, s.gauge - 1⟩

/-- Run a trace of gauge events from a state. -/
def runGauge : AccState → List GEv → Option AccState
  | s, [] => some s
  | s, e :: r =>
    match gstep s e with
    | none => none
    | some s1 => runGauge s1 r

/-- The acceptor's initial state: no session running, gauge at zero. -/
def initAcc : AccState :=
  ⟨0, 0⟩

/-- Number of accepted-connection events (gauge increments) in a trace. -/
def countAccepts : List GEv → Nat
  | [] => 0
  | .acceptConn :: r => countAccepts r + 1
  | .sessionDone :: r => countAccepts r

/-- Number of session-completion events (gauge decrements) in a trace. -/
def countDones : List GEv → Nat
  | [] => 0
  | .acceptConn :: r => countDones r
  | .sessionDone :: r => countDones r + 1

lemma runGauge_counts (t : List GEv) (s0 s : AccState)
    (h : runGauge s0 t = some s) :
    s.running + countDones t = s0.running + countAccepts t ∧
    s.gauge + (countDones t : Int) = s0.gauge + countAccepts t := by
  induction t generalizing s0 with
  | nil =>
    simp only [runGauge, Option.some.injEq] at h
    subst h
    simp [countAccepts, countDones]
  | cons e r ih =>
    cases e with
    | acceptConn =>
      simp only [runGauge, gstep] at h
      obtain ⟨ha, hb⟩ := ih _ h
      dsimp only at ha hb
      simp only [countAccepts, countDones]
      constructor
      · omega
      · push_cast at hb ⊢
        omega
    | sessionDone =>
      rcases s0 with ⟨n, g⟩
      cases n with
      | zero => simp [runGauge, gstep] at h
      | succ m =>
        simp only [runGauge, gstep] at h
        obtain ⟨ha, hb⟩ := ih _ h
        dsimp only at ha hb
        simp only [countAccepts, countDones]
        constructor
        · omega
        · push_cast at hb ⊢
          omega

/-- **C9.** For every interleaving in which each session-completion event is
matched to an earlier accept of a running session, in every state reachable
from the initial state the gauge equals accepted-count minus
completed-count, completions never exceed accepts (each increment precedes
its matching decrement), the gauge is never negative, and at quiescence
(no session running) the gauge is exactly 0. -/
theorem C9_gauge_never_negative (t : List GEv) (s : AccState)
    (h : runGauge initAcc t = some s) :
    s.gauge = (countAccepts t : Int) - countDones t ∧
    countDones t ≤ countAccepts t ∧
    0 ≤ s.gauge ∧
    (s.running = 0 → s.gauge = 0) := by
  have hc := runGauge_counts t initAcc s h
  rcases hc with ⟨h1, h2⟩
  simp only [initAcc] at h1 h2
  have hr : (0:Int) ≤ s.running := Int.natCast_nonneg _
  refine ⟨by omega, by omega, ?_, fun hz => ?_⟩
  · have : s.gauge = (s.running : Int) := by omega
    omega
  · have : s.gauge = (s.running : Int) := by omega
    rw [this, hz]
    rfl

/-- Witness for C9 at the trace [accept, complete, accept]. -/
theorem C9_gauge_never_negative_witness :
    0 ≤ (AccState.mk 1 1).gauge ∧
    countDones [GEv.acceptConn, GEv.sessionDone, GEv.acceptConn] ≤
      countAccepts [GEv.acceptConn, GEv.sessionDone, GEv.acceptConn] :=
  have h := C9_gauge_never_negative
    [GEv.acceptConn, GEv.sessionDone, GEv.acceptConn] ⟨1, 1⟩ (by decide)
  ⟨h.2.2.1, h.2.1⟩

end Mongobetween
